import Mathlib

/-!
# Verification of the watchtower per-stream batching and delivery pipeline

Shallow embedding of `src/watchtower/__init__.py` (`CloudWatchLogHandler` and
`_idempotent_create`).  Python dictionaries become association lists, the
per-stream queue worker `batch_sender` becomes a pure recursion over the
sequence of items the worker receives from its queue (real messages, queue
timeouts, and the `END` shutdown sentinel), and the remote `put_log_events`
call is abstracted by an oracle assigning an outcome to each attempt.
-/

namespace Watchtower

/-- A wire-ready log event, as built in `emit`:
`msg = dict(timestamp=..., message=...)`. `message` is the formatted payload
string. -/
structure LogEvent where
  timestamp : Int
  message : String
deriving DecidableEq, Repr

/-- The accounted size of one event, from `batch_sender.size`:
`len(msg["message"]) + 26`.  Python 3 `len` on a `str` counts code points,
which `String.length` mirrors. -/
def size (m : LogEvent) : Nat := m.message.length + 26

/-- Modelled from the spec: the accounting the spec (and the handler's own
docstring, quoting the CloudWatch documentation) prescribes — the payload
encoded as UTF-8, in bytes, plus 26 bytes of per-event framing overhead.
Kept separate from `size` (the code's accounting) to compare the two. -/
def specSize (m : LogEvent) : Nat := m.message.utf8ByteSize + 26

/-- Total accounted size of a batch: `sum(size(msg) for msg in cur_batch)`. -/
def batchSize (b : List LogEvent) : Nat := (b.map size).sum

/-- One item received by the worker in `batch_sender`'s inner loop:
a real message (tagged with whether `time.time() >= cur_batch_deadline`
held when it was received — the timing oracle), a `Queue.Empty` timeout
(the code then sets `msg = None`), or the `END` shutdown sentinel. -/
inductive QItem where
  | msg (m : LogEvent) (deadlineHit : Bool)
  | timeout
  | endSentinel
deriving DecidableEq, Repr

/-- The real messages carried by a list of received items, in order. -/
def realMsgs : List QItem → List LogEvent
  | [] => []
  | .msg m _ :: rest => m :: realMsgs rest
  | .timeout :: rest => realMsgs rest
  | .endSentinel :: rest => realMsgs rest

/-- The flush condition of `batch_sender` for a received real message:
`cur_batch_size + size(msg) > max_batch_size or cur_batch_msg_count >=
max_batch_count or time.time() >= cur_batch_deadline` (the `msg is None` and
`msg == self.END` disjuncts are the other two `QItem` cases). -/
def flushCond (maxSize maxCount : Nat) (curSize curCount : Nat)
    (m : LogEvent) (deadlineHit : Bool) : Bool :=
  decide (maxSize < curSize + size m) || decide (maxCount ≤ curCount) || deadlineHit

/-- The `batch_sender` loop, fused over its outer (batch reset) and inner
(accumulate) loops.  `cur`, `curSize`, `curCount` are `cur_batch`,
`cur_batch_size`, `cur_batch_msg_count`.  Each step consumes the next item
received from the queue; the returned list records every batch passed to
`_submit_batch`, in submission order (empty batches included — `_submit_batch`
ignores them).  On a timeout the current batch is flushed and the next batch
starts empty (`cur_batch = [] if msg is None ...`); on the `END` sentinel the
current batch is flushed and the worker terminates (`while msg != self.END`);
a real message either triggers a flush and becomes the sole first member of
the next batch (`... else [msg]`), or is appended to the current batch. -/
def batchLoop (maxSize maxCount : Nat) (cur : List LogEvent)
    (curSize curCount : Nat) : List QItem → List (List LogEvent)
  | [] => []
  | .timeout :: rest => cur :: batchLoop maxSize maxCount [] 0 0 rest
  | .endSentinel :: _ => [cur]
  | .msg m dl :: rest =>
      if flushCond maxSize maxCount curSize curCount m dl then
        cur :: batchLoop maxSize maxCount [m] (size m) 1 rest
      else
        batchLoop maxSize maxCount (cur ++ [m]) (curSize + size m) (curCount + 1) rest

/-- The worker entry point: `batch_sender` starts with `msg = None`, hence an
empty current batch and zero accumulators. -/
def batchSender (maxSize maxCount : Nat) (items : List QItem) :
    List (List LogEvent) :=
  batchLoop maxSize maxCount [] 0 0 items

/-- Outcome of one `put_log_events` attempt, supplied by an oracle (one
outcome per attempt, indexed by attempt number): either the call is accepted
(returning `nextSequenceToken`, and possibly carrying a
`rejectedLogEventsInfo` key), or it raises a `ClientError` with an error code
and an error message. -/
inductive PutOutcome where
  | accepted (nextSequenceToken : String) (hasRejectedInfo : Bool)
  | rejected (code message : String)
deriving DecidableEq, Repr

/-- One remote `put_log_events` call as issued by `_submit_batch`: the
`sequenceToken` kwarg (`none` when the kwarg is absent) and the `logEvents`
kwarg. -/
structure PutCall where
  sequenceToken : Option String
  logEvents : List LogEvent
deriving DecidableEq, Repr

/-- `e.response["Error"]["Message"].rsplit(" ", 1)[-1]`: the part of the
error message after its last space character (the whole message when it has
none). -/
def lastWord (s : String) : String :=
  String.mk (s.data.foldl (fun acc c => if c = ' ' then [] else acc ++ [c]) [])

/-- The error codes the retry loop corrects and retries on:
`("DataAlreadyAcceptedException", "InvalidSequenceTokenException")`. -/
def retryableCode (c : String) : Bool :=
  c == "DataAlreadyAcceptedException" || c == "InvalidSequenceTokenException"

/-- How the `for retry in range(max_retries)` loop ends: `break` with a bound
`response`, an uncaught re-raised `ClientError`, or falling off the loop with
`response` never bound (the subsequent `"rejectedLogEventsInfo" in response`
line then raises a `NameError` in Python). -/
inductive LoopResult where
  | gotResponse (nextSequenceToken : String) (hasRejectedInfo : Bool)
  | raised (code message : String)
  | exhausted
deriving DecidableEq, Repr

/-- The retry loop of `_submit_batch` (lines 90-99): attempt `k` sends the
current `kwargs` (token `tok`, events fixed); on success it breaks; on a
`ClientError` whose code is retryable it overwrites `kwargs["sequenceToken"]`
with the last word of the error message and continues; on any other
`ClientError` it re-raises.  Returns the trace of calls issued and how the
loop ended.  `fuel` is the number of remaining loop iterations. -/
def submitLoop (oracle : Nat → PutOutcome) (events : List LogEvent) (k : Nat)
    (tok : Option String) : Nat → List PutCall × LoopResult
  | 0 => ([], .exhausted)
  | fuel + 1 =>
    match oracle k with
    | .accepted t rej => ([⟨tok, events⟩], .gotResponse t rej)
    | .rejected c m =>
      if retryableCode c then
        let r := submitLoop oracle events (k + 1) (some (lastWord m)) fuel
        (⟨tok, events⟩ :: r.1, r.2)
      else
        ([⟨tok, events⟩], .raised c m)

/-- How `_submit_batch` returns to its caller. -/
inductive SubmitResult where
  | ok
  | raisedClientError (code message : String)
  | raisedDeliveryFailure
  | raisedNameError
deriving DecidableEq, Repr

/-- Observable outcome of one `_submit_batch` invocation: the remote calls it
issued, how it returned, and the value of `self.sequence_tokens[stream_name]`
after it finished.  The method reads the stored token (lines 87-88) but never
assigns it, so `storedTokenAfter` equals the token it was entered with in
every branch. -/
structure SubmitOutcome where
  calls : List PutCall
  result : SubmitResult
  storedTokenAfter : Option String
deriving DecidableEq, Repr

/-- The comparison used by `sorted(batch, key=itemgetter("timestamp"),
reverse=False)`: ascending by `timestamp`. -/
def tsLE (a b : LogEvent) : Prop := a.timestamp ≤ b.timestamp

instance : DecidableRel tsLE := fun a b => Int.decLe a.timestamp b.timestamp

instance : IsTotal LogEvent tsLE := ⟨fun a b => Int.le_total a.timestamp b.timestamp⟩

instance : IsTrans LogEvent tsLE := ⟨fun _ _ _ h1 h2 => Int.le_trans h1 h2⟩

/-- `sorted(batch, key=itemgetter("timestamp"), reverse=False)`: Python's
`sorted` is a stable ascending sort by the key.  The output of a stable sort
is uniquely determined by the comparison, so the structurally recursive
stable sort `List.insertionSort` is its faithful embedding. -/
def sortedBatch (batch : List LogEvent) : List LogEvent :=
  batch.insertionSort tsLE

/-- `_submit_batch(batch, stream_name, max_retries=5)`.  `storedToken` is
`self.sequence_tokens[stream_name]` at entry; `none` means the
`sequenceToken` kwarg is left out of the request.  An empty batch returns at
once (lines 82-83).  Otherwise the sorted batch is sent through the retry
loop; a response carrying `rejectedLogEventsInfo` raises (lines 101-103). -/
def submitBatch (batch : List LogEvent) (storedToken : Option String)
    (oracle : Nat → PutOutcome) (maxRetries : Nat := 5) : SubmitOutcome :=
  if batch.length < 1 then ⟨[], .ok, storedToken⟩
  else
    let r := submitLoop oracle (sortedBatch batch) 0 storedToken maxRetries
    match r.2 with
    | .gotResponse _t rej =>
        if rej then ⟨r.1, .raisedDeliveryFailure, storedToken⟩
        else ⟨r.1, .ok, storedToken⟩
    | .raised c m => ⟨r.1, .raisedClientError c m, storedToken⟩
    | .exhausted => ⟨r.1, .raisedNameError, storedToken⟩

/-- A remote oracle used to exercise the retry loop on a concrete run: the
first attempt is rejected with a stale-token error, later attempts accept. -/
def oracleStale : Nat → PutOutcome := fun i =>
  if i = 0 then
    PutOutcome.rejected "InvalidSequenceTokenException"
      "The next expected sequenceToken is: 4242"
  else PutOutcome.accepted "tokB" false

/-- `_idempotent_create` observes the result of the wrapped remote call. -/
inductive CallResult where
  | ok
  | clientError (code : String)
deriving DecidableEq, Repr

/-- `_idempotent_create(callable, ...)` (lines 16-21): a `ClientError` whose
code is `"ResourceAlreadyExistsException"` is swallowed; any other
`ClientError` is re-raised; a successful call passes through. -/
def idempotentCreate (r : CallResult) : CallResult :=
  match r with
  | .ok => .ok
  | .clientError c =>
      if c = "ResourceAlreadyExistsException" then .ok else .clientError c

/-- Lookup in a Python dict modelled as an association list (keys are unique
because entries are only ever added after a failed membership test). -/
def alookup {β : Type} : List (String × β) → String → Option β
  | [], _ => none
  | (k2, v) :: rest, k => if k2 = k then some v else alookup rest k

/-- Dict assignment `d[k] = v`: replace the value when the key is present,
append the entry otherwise. -/
def aset {β : Type} : List (String × β) → String → β → List (String × β)
  | [], k, v => [(k, v)]
  | (k2, v2) :: rest, k, v =>
      if k2 = k then (k2, v) :: rest else (k2, v2) :: aset rest k v

/-- In-place update of the value stored at `k` (used for `queue.put`). -/
def amodify {β : Type} : List (String × β) → String → (β → β) → List (String × β)
  | [], _, _ => []
  | (k2, v2) :: rest, k, f =>
      if k2 = k then (k2, f v2) :: rest else (k2, v2) :: amodify rest k f

/-- The handler configuration relevant to `emit`: the fixed `stream_name`
(`none` means "use the record's logger name") and `use_queues`. -/
structure Config where
  streamName : Option String
  useQueues : Bool
deriving DecidableEq, Repr

/-- The mutable handler state touched by `emit` and `flush`:
`self.sequence_tokens` and `self.queues` (dicts keyed by stream name),
`self.threads` (modelled by the stream names whose worker was started),
`self.shutting_down`, plus observation fields recording the remote
`create_log_stream` calls issued, the `warnings.warn` calls made, and the
batches handed synchronously to `_submit_batch` when `use_queues` is false. -/
structure HandlerState where
  sequenceTokens : List (String × Option String)
  queues : List (String × List LogEvent)
  threads : List String
  shuttingDown : Bool
  createStreamCalls : List String
  warningCount : Nat
  directSubmits : List (String × List LogEvent)
deriving DecidableEq, Repr

/-- Lines 109-112 of `emit`: when the resolved stream is unknown, create the
remote stream idempotently (the call is recorded; its non-conflict failures
are covered by `idempotentCreate`) and initialise its token to `none`. -/
def ensureStream (st : HandlerState) (name : String) : HandlerState :=
  if (alookup st.sequenceTokens name).isNone then
    { st with createStreamCalls := st.createStreamCalls ++ [name],
              sequenceTokens := aset st.sequenceTokens name none }
  else st

/-- Lines 117-125 of `emit`: create the stream's queue and start its worker
thread when the stream has no queue yet. -/
def ensureQueue (st : HandlerState) (name : String) : HandlerState :=
  if (alookup st.queues name).isNone then
    { st with queues := aset st.queues name [],
              threads := st.threads ++ [name] }
  else st

/-- `emit(message)` (lines 105-129).  `recName` is `message.name`; `m` is the
wire event built from the record (`timestamp`/formatted `message` — the
formatting itself is outside the claims and taken as given).  The stream is
provisioned if unknown; with `use_queues`, a missing queue is created and its
worker thread started, then the event is enqueued unless `shutting_down` is
set, in which case a warning is recorded instead.  Without queues the event
is submitted synchronously as a singleton batch. -/
def emit (cfg : Config) (st : HandlerState) (recName : String) (m : LogEvent) :
    HandlerState :=
  let name := cfg.streamName.getD recName
  let st1 := ensureStream st name
  if cfg.useQueues then
    let st2 := ensureQueue st1 name
    if st2.shuttingDown then
      { st2 with warningCount := st2.warningCount + 1 }
    else
      { st2 with queues := amodify st2.queues name (fun q => q ++ [m]) }
  else
    { st1 with directSubmits := st1.directSubmits ++ [(name, [m])] }

/-- Observable outcome of `flush()` (lines 172-177): the handler state after
it returns, the queues into which the `END` sentinel was put, and, per
stream, the events that were pending and that `q.join()` waited to see
processed.  After the join every queue has been fully consumed by its worker,
so the post-state holds every known queue empty. -/
structure FlushResult where
  state : HandlerState
  sentinelTargets : List String
  drained : List (String × List LogEvent)
deriving DecidableEq, Repr

/-- `flush()`: set `shutting_down`, put the `END` sentinel into every known
queue, and block until each queue's items (sentinel included) are processed. -/
def flush (st : HandlerState) : FlushResult :=
  FlushResult.mk
    { st with
      shuttingDown := true
      queues := st.queues.map (fun p => (p.1, [])) }
    (st.queues.map Prod.fst)
    st.queues

/-- The events currently pending in the queue of stream `name` (a missing
queue reads as empty). -/
def queueContents (st : HandlerState) (name : String) : List LogEvent :=
  (alookup st.queues name).getD []

/-- A concrete handler state with one known stream `"s"`, one pending event,
and shutdown already initiated, used to exercise the shutdown theorems. -/
def stShut : HandlerState :=
  { sequenceTokens := [("s", some "tok0")],
    queues := [("s", [⟨0, "a"⟩])],
    threads := ["s"],
    shuttingDown := true,
    createStreamCalls := ["s"],
    warningCount := 0,
    directSubmits := [] }

@[simp] lemma batchSize_nil : batchSize [] = 0 := rfl

@[simp] lemma batchSize_append_singleton (l : List LogEvent) (m : LogEvent) :
    batchSize (l ++ [m]) = batchSize l + size m := by
  simp [batchSize]

@[simp] lemma batchSize_singleton (m : LogEvent) : batchSize [m] = size m := by
  simp [batchSize]

/-- Every event carried by the worker ends up in the concatenation of the
flushed batches, in order, once the sentinel arrives: generalised over the
accumulated batch. -/
lemma join_batchLoop (maxS maxC : Nat) :
    ∀ (items : List QItem), QItem.endSentinel ∉ items →
    ∀ (cur : List LogEvent) (sz cnt : Nat),
      (batchLoop maxS maxC cur sz cnt (items ++ [QItem.endSentinel])).flatten
        = cur ++ realMsgs items := by
  intro items
  induction items with
  | nil =>
    intro _ cur sz cnt
    simp [batchLoop, realMsgs]
  | cons it rest ih =>
    intro h cur sz cnt
    have hrest : QItem.endSentinel ∉ rest := fun hm => h (List.mem_cons_of_mem _ hm)
    cases it with
    | msg m dl =>
      by_cases hf : flushCond maxS maxC sz cnt m dl = true
      · simp [batchLoop, hf, realMsgs, ih hrest]
      · simp [batchLoop, hf, realMsgs, ih hrest]
    | timeout =>
      simp [batchLoop, realMsgs, ih hrest]
    | endSentinel =>
      exact absurd (List.mem_cons_self _ _) h

/-- Size/count invariant of the accumulator, generalised over the current
batch; the accumulators are instantiated at the values they provably track
(`cur_batch_size = batchSize cur`, `cur_batch_msg_count = cur.length`). -/
lemma batchLoop_bounds (maxS maxC : Nat) (hC : 1 ≤ maxC) :
    ∀ (items : List QItem) (cur : List LogEvent),
      (∀ m ∈ realMsgs items, size m ≤ maxS) →
      cur.length ≤ maxC → batchSize cur ≤ maxS →
      ∀ b ∈ batchLoop maxS maxC cur (batchSize cur) cur.length items,
        b.length ≤ maxC ∧ batchSize b ≤ maxS := by
  intro items
  induction items with
  | nil =>
    intro cur _ _ _ b hb
    simp [batchLoop] at hb
  | cons it rest ih =>
    intro cur hsz hlen hsize b hb
    cases it with
    | msg m dl =>
      have hm : size m ≤ maxS := hsz m (by simp [realMsgs])
      have hrest : ∀ x ∈ realMsgs rest, size x ≤ maxS :=
        fun x hx => hsz x (by simp [realMsgs, hx])
      by_cases hf : flushCond maxS maxC (batchSize cur) cur.length m dl = true
      · rw [batchLoop, if_pos hf] at hb
        rcases List.mem_cons.mp hb with rfl | hb
        · exact ⟨hlen, hsize⟩
        · have := ih [m] hrest (by simpa using hC) (by simpa using hm)
          simp only [batchSize_singleton, List.length_singleton] at this
          exact this b hb
      · rw [batchLoop, if_neg hf] at hb
        have hnf : batchSize cur + size m ≤ maxS ∧ cur.length < maxC := by
          simp [flushCond, not_or] at hf
          exact hf.1
        have hlen' : (cur ++ [m]).length ≤ maxC := by
          simp only [List.length_append, List.length_singleton]
          omega
        have hsize' : batchSize (cur ++ [m]) ≤ maxS := by
          simp only [batchSize_append_singleton]
          omega
        have := ih (cur ++ [m]) hrest hlen' hsize'
        simp only [batchSize_append_singleton, List.length_append,
          List.length_singleton] at this
        exact this b hb
    | timeout =>
      have hrest : ∀ x ∈ realMsgs rest, size x ≤ maxS :=
        fun x hx => hsz x (by simp [realMsgs, hx])
      rw [batchLoop] at hb
      rcases List.mem_cons.mp hb with rfl | hb
      · exact ⟨hlen, hsize⟩
      · have := ih [] hrest (by simp [hC]) (by simp)
        simp only [batchSize_nil, List.length_nil] at this
        exact this b hb
    | endSentinel =>
      rw [batchLoop] at hb
      rcases List.mem_cons.mp hb with rfl | hb
      · exact ⟨hlen, hsize⟩
      · simp at hb

end Watchtower

namespace Watchtower

/-- C3: for every sequence of non-sentinel items received by the worker,
followed by the shutdown sentinel, the concatenation of all batches passed to
`_submit_batch`, in submission order, is exactly the sequence of real messages
received, in order (no drop, no duplicate, no reorder), for any mix of
size/count/deadline triggers; moreover a real message whose arrival triggers a
flush is never part of the flushed batch and becomes the sole initial member
of the next one. -/
theorem batch_sender_exact_delivery :
    ∀ (maxSize maxCount : Nat) (items : List QItem),
      QItem.endSentinel ∉ items →
      ((batchSender maxSize maxCount (items ++ [QItem.endSentinel])).flatten
          = realMsgs items)
      ∧ (∀ (cur : List LogEvent) (sz cnt : Nat) (m : LogEvent) (dl : Bool)
            (rest : List QItem),
          flushCond maxSize maxCount sz cnt m dl = true →
          batchLoop maxSize maxCount cur sz cnt (QItem.msg m dl :: rest)
            = cur :: batchLoop maxSize maxCount [m] (size m) 1 rest) := by
  intro maxS maxC items h
  constructor
  · simpa [batchSender] using join_batchLoop maxS maxC items h [] 0 0
  · intro cur sz cnt m dl rest hf
    rw [batchLoop, if_pos hf]

theorem batch_sender_exact_delivery_witness :
    QItem.endSentinel ∉
        [QItem.msg ⟨5, "a"⟩ false, QItem.timeout, QItem.msg ⟨2, "b"⟩ true]
      ∧ (batchSender 1000 10
          ([QItem.msg ⟨5, "a"⟩ false, QItem.timeout, QItem.msg ⟨2, "b"⟩ true]
            ++ [QItem.endSentinel])).flatten
        = realMsgs
            [QItem.msg ⟨5, "a"⟩ false, QItem.timeout, QItem.msg ⟨2, "b"⟩ true] :=
  ⟨by decide,
   (batch_sender_exact_delivery 1000 10
      [QItem.msg ⟨5, "a"⟩ false, QItem.timeout, QItem.msg ⟨2, "b"⟩ true]
      (by decide)).1⟩

/-- C2 (amended): provided every event's accounted size is at most
`max_batch_size` and `max_batch_count ≥ 1`, every batch passed to
`_submit_batch` holds at most `max_batch_count` events and at most
`max_batch_size` accounted bytes.  (As stated over all event sequences the
claim is false: a single oversized event is flushed in a batch of its own
whose accounted size exceeds the bound — see the counterexample.) -/
theorem batch_sender_bounds :
    ∀ (maxSize maxCount : Nat) (items : List QItem),
      1 ≤ maxCount →
      (∀ m ∈ realMsgs items, size m ≤ maxSize) →
      ∀ b ∈ batchSender maxSize maxCount items,
        b.length ≤ maxCount ∧ batchSize b ≤ maxSize := by
  intro maxS maxC items hC hsz
  simpa [batchSender] using
    batchLoop_bounds maxS maxC hC items [] hsz (by simp [hC]) (by simp)

/-- C2, as stated, is false on the code: with `max_batch_size = 30` a single
event of accounted size 36 is submitted in a batch exceeding the size bound,
and with `max_batch_count = 0` a batch of one event exceeds the count bound. -/
theorem batch_sender_bounds_cex :
    (∃ b ∈ batchSender 30 10
        [QItem.msg ⟨0, "aaaaaaaaaa"⟩ false, QItem.endSentinel],
      30 < batchSize b)
    ∧ (∃ b ∈ batchSender 1000 0 [QItem.msg ⟨0, "x"⟩ false, QItem.endSentinel],
      0 < b.length) := by
  decide

lemma submitLoop_length_le (oracle : Nat → PutOutcome) (events : List LogEvent) :
    ∀ (fuel k : Nat) (tok : Option String),
      (submitLoop oracle events k tok fuel).1.length ≤ fuel := by
  intro fuel
  induction fuel with
  | zero => intro k tok; simp [submitLoop]
  | succ f ih =>
    intro k tok
    cases h : oracle k with
    | accepted t rej => simp [submitLoop, h]
    | rejected c m =>
      by_cases hr : retryableCode c = true
      · have := ih (k + 1) (some (lastWord m))
        simp only [submitLoop, h, hr, if_pos, List.length_cons]
        omega
      · simp [submitLoop, h, hr]

lemma submitLoop_calls_events (oracle : Nat → PutOutcome) (events : List LogEvent) :
    ∀ (fuel k : Nat) (tok : Option String),
      ∀ call ∈ (submitLoop oracle events k tok fuel).1,
        call.logEvents = events := by
  intro fuel
  induction fuel with
  | zero => intro k tok call hc; simp [submitLoop] at hc
  | succ f ih =>
    intro k tok call hc
    cases h : oracle k with
    | accepted t rej =>
      simp [submitLoop, h] at hc
      simp [hc]
    | rejected c m =>
      by_cases hr : retryableCode c = true
      · simp only [submitLoop, h, hr, if_pos] at hc
        rcases List.mem_cons.mp hc with rfl | hc
        · rfl
        · exact ih (k + 1) (some (lastWord m)) call hc
      · simp [submitLoop, h, hr] at hc
        simp [hc]

lemma submitLoop_head (oracle : Nat → PutOutcome) (events : List LogEvent)
    (f k : Nat) (tok : Option String) :
    (submitLoop oracle events k tok (f + 1)).1.head? = some ⟨tok, events⟩ := by
  cases h : oracle k with
  | accepted t rej => simp [submitLoop, h]
  | rejected c m =>
    by_cases hr : retryableCode c = true
    · simp [submitLoop, h, hr]
    · simp [submitLoop, h, hr]

lemma submitBatch_calls (batch : List LogEvent) (tok : Option String)
    (oracle : Nat → PutOutcome) (fuel : Nat) (h : batch ≠ []) :
    (submitBatch batch tok oracle fuel).calls
      = (submitLoop oracle (sortedBatch batch) 0 tok fuel).1 := by
  have hlen : ¬ batch.length < 1 := by
    cases batch with
    | nil => exact absurd rfl h
    | cons a l => simp
  unfold submitBatch
  rw [if_neg hlen]
  cases hr : (submitLoop oracle (sortedBatch batch) 0 tok fuel).2 with
  | gotResponse t rej => cases rej <;> simp [hr]
  | raised c m => simp [hr]
  | exhausted => simp [hr]

lemma submitBatch_token_frame (batch : List LogEvent) (tok : Option String)
    (oracle : Nat → PutOutcome) (fuel : Nat) :
    (submitBatch batch tok oracle fuel).storedTokenAfter = tok := by
  unfold submitBatch
  by_cases hlen : batch.length < 1
  · rw [if_pos hlen]
  · rw [if_neg hlen]
    cases hr : (submitLoop oracle (sortedBatch batch) 0 tok fuel).2 with
    | gotResponse t rej => cases rej <;> simp [hr]
    | raised c m => simp [hr]
    | exhausted => simp [hr]

theorem batch_sender_bounds_witness :
    1 ≤ 3
    ∧ (∀ m ∈ realMsgs [QItem.msg ⟨0, "a"⟩ false, QItem.msg ⟨1, "b"⟩ false,
          QItem.msg ⟨2, "c"⟩ false, QItem.msg ⟨3, "d"⟩ false], size m ≤ 100)
    ∧ ∀ b ∈ batchSender 100 3 [QItem.msg ⟨0, "a"⟩ false,
          QItem.msg ⟨1, "b"⟩ false, QItem.msg ⟨2, "c"⟩ false,
          QItem.msg ⟨3, "d"⟩ false],
        b.length ≤ 3 ∧ batchSize b ≤ 100 :=
  ⟨by decide, by decide,
   batch_sender_bounds 100 3
     [QItem.msg ⟨0, "a"⟩ false, QItem.msg ⟨1, "b"⟩ false,
      QItem.msg ⟨2, "c"⟩ false, QItem.msg ⟨3, "d"⟩ false]
     (by decide) (by decide)⟩

lemma filter_ts_sortedBatch (batch : List LogEvent) (t : Int) :
    (sortedBatch batch).filter (fun e => e.timestamp == t)
      = batch.filter (fun e => e.timestamp == t) := by
  set p : LogEvent → Bool := fun e => e.timestamp == t with hp
  have hmem : ∀ a ∈ batch.filter p, a.timestamp = t := by
    intro a ha
    have := List.of_mem_filter ha
    simpa [hp] using this
  have h1 : List.Sublist (batch.filter p) batch := List.filter_sublist _
  have h2 : (batch.filter p).Pairwise tsLE := by
    apply List.pairwise_of_forall_mem_list
    intro a ha b hb
    show a.timestamp ≤ b.timestamp
    rw [hmem a ha, hmem b hb]
  have h3 : List.Sublist (batch.filter p) (sortedBatch batch) :=
    List.sublist_insertionSort h2 h1
  have hself : (batch.filter p).filter p = batch.filter p :=
    List.filter_eq_self.mpr fun a ha => by simp [hp, hmem a ha]
  have h4 : List.Sublist (batch.filter p) ((sortedBatch batch).filter p) := by
    have := h3.filter p
    rwa [hself] at this
  have h5 : ((sortedBatch batch).filter p).length = (batch.filter p).length :=
    ((List.perm_insertionSort tsLE batch).filter p).length_eq
  exact (h4.eq_of_length h5.symm).symm

/-- C9: `_submit_batch` on an empty batch is a complete no-op: no remote call
is issued, it returns normally, and the stored sequencing token is unchanged,
for every stored token, remote behaviour, and retry bound. -/
theorem submit_batch_empty_noop :
    ∀ (storedToken : Option String) (oracle : Nat → PutOutcome) (n : Nat),
      submitBatch [] storedToken oracle n
        = ⟨[], SubmitResult.ok, storedToken⟩ := by
  intro tok oracle n
  simp [submitBatch]

/-- C1 fails on the code: `_submit_batch` never assigns
`self.sequence_tokens[stream_name]`, so after a successful submission (the
remote call accepts with token "tokA" and no rejected-events info) the stored
token is still its old value (`none` here), not the returned token, and the
next submission on the stream again carries no token rather than "tokA". -/
theorem submit_batch_token_never_stored :
    ((fun _ => PutOutcome.accepted "tokA" false : Nat → PutOutcome) 0
        = PutOutcome.accepted "tokA" false)
    ∧ (submitBatch [⟨0, "a"⟩] none
        (fun _ => PutOutcome.accepted "tokA" false) 5).result = SubmitResult.ok
    ∧ (submitBatch [⟨0, "a"⟩] none
        (fun _ => PutOutcome.accepted "tokA" false) 5).storedTokenAfter = none
    ∧ (submitBatch [⟨0, "a"⟩] none
          (fun _ => PutOutcome.accepted "tokA" false) 5).storedTokenAfter
        ≠ some "tokA"
    ∧ (submitBatch [⟨1, "b"⟩]
        ((submitBatch [⟨0, "a"⟩] none
            (fun _ => PutOutcome.accepted "tokA" false) 5).storedTokenAfter)
        (fun _ => PutOutcome.accepted "tokB" false) 5).calls
      = [⟨none, [⟨1, "b"⟩]⟩] := by
  refine ⟨rfl, by decide, by decide, by decide, by decide⟩

/-- C6: the retry loop issues at most `fuel` remote calls (`fuel` defaults to
`max_retries = 5`); on a rejection whose code is `DataAlreadyAcceptedException`
or `InvalidSequenceTokenException` it immediately retries carrying the token
extracted from the error message (its last word); on a rejection with any
other code it re-raises at once, that call being the last one. -/
theorem submit_retry_policy :
    ∀ (oracle : Nat → PutOutcome) (events : List LogEvent) (k : Nat)
      (tok : Option String) (fuel : Nat),
      ((submitLoop oracle events k tok fuel).1.length ≤ fuel)
      ∧ (∀ c m f, oracle k = PutOutcome.rejected c m → retryableCode c = true →
          fuel = f + 1 →
          submitLoop oracle events k tok fuel
            = (⟨tok, events⟩ ::
                  (submitLoop oracle events (k + 1) (some (lastWord m)) f).1,
               (submitLoop oracle events (k + 1) (some (lastWord m)) f).2))
      ∧ (∀ c m f, oracle k = PutOutcome.rejected c m →
          retryableCode c = false → fuel = f + 1 →
          submitLoop oracle events k tok fuel
            = ([⟨tok, events⟩], LoopResult.raised c m))
      ∧ (∀ (b : List LogEvent) (t : Option String) (o : Nat → PutOutcome),
          submitBatch b t o = submitBatch b t o 5) := by
  intro oracle events k tok fuel
  refine ⟨submitLoop_length_le oracle events fuel k tok, ?_, ?_, fun _ _ _ => rfl⟩
  · intro c m f hk hr hf
    subst hf
    simp [submitLoop, hk, hr]
  · intro c m f hk hr hf
    subst hf
    simp [submitLoop, hk, hr]

theorem submit_retry_policy_witness :
    oracleStale 0
        = PutOutcome.rejected "InvalidSequenceTokenException"
            "The next expected sequenceToken is: 4242"
    ∧ retryableCode "InvalidSequenceTokenException" = true
    ∧ (2 : Nat) = 1 + 1
    ∧ submitLoop oracleStale [] 0 none 2
        = (⟨none, []⟩ ::
              (submitLoop oracleStale []
                1 (some (lastWord "The next expected sequenceToken is: 4242"))
                1).1,
           (submitLoop oracleStale []
              1 (some (lastWord "The next expected sequenceToken is: 4242"))
              1).2) :=
  ⟨rfl, rfl, rfl,
   (submit_retry_policy oracleStale [] 0 none 2).2.1
     "InvalidSequenceTokenException"
     "The next expected sequenceToken is: 4242" 1 rfl rfl rfl⟩

/-- C5: for a non-empty batch, every remote call issued by `_submit_batch`
sends the batch stably sorted ascending by timestamp: the sent list has
non-decreasing timestamps, is a permutation of the batch, and events with
equal timestamps keep their accumulation order (the filter at any timestamp
is unchanged). -/
theorem submit_sorted_stable :
    ∀ (batch : List LogEvent) (tok : Option String)
      (oracle : Nat → PutOutcome) (fuel : Nat),
      batch ≠ [] → 0 < fuel →
      ((submitBatch batch tok oracle fuel).calls ≠ []
        ∧ ∀ call ∈ (submitBatch batch tok oracle fuel).calls,
            call.logEvents = sortedBatch batch)
      ∧ (sortedBatch batch).Pairwise tsLE
      ∧ (sortedBatch batch).Perm batch
      ∧ ∀ t : Int,
          (sortedBatch batch).filter (fun e => e.timestamp == t)
            = batch.filter (fun e => e.timestamp == t) := by
  intro batch tok oracle fuel hb hf
  refine ⟨⟨?_, ?_⟩, ?_, ?_, fun t => filter_ts_sortedBatch batch t⟩
  · rw [submitBatch_calls batch tok oracle fuel hb]
    obtain ⟨f, rfl⟩ : ∃ f, fuel = f + 1 :=
      ⟨fuel - 1, (Nat.succ_pred_eq_of_pos hf).symm⟩
    intro hnil
    have := submitLoop_head oracle (sortedBatch batch) f 0 tok
    rw [hnil] at this
    exact Option.noConfusion this
  · rw [submitBatch_calls batch tok oracle fuel hb]
    exact submitLoop_calls_events oracle (sortedBatch batch) fuel 0 tok
  · exact List.sorted_insertionSort tsLE batch
  · exact List.perm_insertionSort tsLE batch

theorem submit_sorted_stable_witness :
    ([⟨5, "a"⟩, ⟨2, "b"⟩, ⟨8, "c"⟩] : List LogEvent) ≠ []
    ∧ (0 : Nat) < 5
    ∧ (sortedBatch [⟨5, "a"⟩, ⟨2, "b"⟩, ⟨8, "c"⟩]).Pairwise tsLE
    ∧ (sortedBatch [⟨5, "a"⟩, ⟨2, "b"⟩, ⟨8, "c"⟩]).Perm
        [⟨5, "a"⟩, ⟨2, "b"⟩, ⟨8, "c"⟩]
    ∧ (sortedBatch [⟨5, "a"⟩, ⟨2, "b"⟩, ⟨8, "c"⟩]).filter
          (fun e => e.timestamp == 5)
        = ([⟨5, "a"⟩, ⟨2, "b"⟩, ⟨8, "c"⟩] : List LogEvent).filter
            (fun e => e.timestamp == 5) :=
  ⟨by decide, by decide,
   (submit_sorted_stable [⟨5, "a"⟩, ⟨2, "b"⟩, ⟨8, "c"⟩] none
      (fun _ => PutOutcome.accepted "tokA" false) 5
      (by decide) (by decide)).2.1,
   (submit_sorted_stable [⟨5, "a"⟩, ⟨2, "b"⟩, ⟨8, "c"⟩] none
      (fun _ => PutOutcome.accepted "tokA" false) 5
      (by decide) (by decide)).2.2.1,
   (submit_sorted_stable [⟨5, "a"⟩, ⟨2, "b"⟩, ⟨8, "c"⟩] none
      (fun _ => PutOutcome.accepted "tokA" false) 5
      (by decide) (by decide)).2.2.2 5⟩

/-- C4 fails on the code: `size` computes `len(msg["message"]) + 26`, and
Python 3 `len` on a `str` counts code points, not UTF-8 bytes, although the
handler's own docstring (and the spec) prescribe UTF-8 accounting.  On the
one-character payload "é" (2 bytes in UTF-8) the code accounts 27 while the
documented accounting gives 28. -/
theorem size_counts_code_points_not_utf8 :
    size ⟨0, "é"⟩ = 27 ∧ specSize ⟨0, "é"⟩ = 28
      ∧ size ⟨0, "é"⟩ ≠ specSize ⟨0, "é"⟩ :=
  ⟨by decide, by decide, by decide⟩

lemma alookup_aset_self {β : Type} (l : List (String × β)) (k : String) (v : β) :
    alookup (aset l k v) k = some v := by
  induction l with
  | nil => simp [aset, alookup]
  | cons p rest ih =>
    obtain ⟨k2, v2⟩ := p
    by_cases h : k2 = k
    · simp [aset, alookup, h]
    · simp [aset, alookup, h, ih]

lemma alookup_aset_ne {β : Type} (l : List (String × β)) (k k2 : String)
    (v : β) (h : k ≠ k2) : alookup (aset l k v) k2 = alookup l k2 := by
  induction l with
  | nil => simp [aset, alookup, h]
  | cons p rest ih =>
    obtain ⟨k3, v3⟩ := p
    by_cases h3 : k3 = k
    · subst h3
      simp [aset, alookup, h]
    · simp [aset, alookup, h3, ih]

lemma alookup_map_empty (l : List (String × List LogEvent)) (k : String) :
    (alookup (l.map (fun p => (p.1, ([] : List LogEvent)))) k).getD [] = [] := by
  induction l with
  | nil => simp [alookup]
  | cons p rest ih =>
    by_cases h : p.1 = k
    · simp [alookup, h]
    · simp [alookup, h, ih]

@[simp] lemma ensureStream_queues (st : HandlerState) (name : String) :
    (ensureStream st name).queues = st.queues := by
  unfold ensureStream
  split <;> rfl

@[simp] lemma ensureStream_shuttingDown (st : HandlerState) (name : String) :
    (ensureStream st name).shuttingDown = st.shuttingDown := by
  unfold ensureStream
  split <;> rfl

@[simp] lemma ensureStream_threads (st : HandlerState) (name : String) :
    (ensureStream st name).threads = st.threads := by
  unfold ensureStream
  split <;> rfl

@[simp] lemma ensureStream_warningCount (st : HandlerState) (name : String) :
    (ensureStream st name).warningCount = st.warningCount := by
  unfold ensureStream
  split <;> rfl

@[simp] lemma ensureQueue_shuttingDown (st : HandlerState) (name : String) :
    (ensureQueue st name).shuttingDown = st.shuttingDown := by
  unfold ensureQueue
  split <;> rfl

@[simp] lemma ensureQueue_sequenceTokens (st : HandlerState) (name : String) :
    (ensureQueue st name).sequenceTokens = st.sequenceTokens := by
  unfold ensureQueue
  split <;> rfl

@[simp] lemma ensureQueue_createStreamCalls (st : HandlerState) (name : String) :
    (ensureQueue st name).createStreamCalls = st.createStreamCalls := by
  unfold ensureQueue
  split <;> rfl

@[simp] lemma ensureQueue_warningCount (st : HandlerState) (name : String) :
    (ensureQueue st name).warningCount = st.warningCount := by
  unfold ensureQueue
  split <;> rfl

lemma alookup_ensureStream_tokens (st : HandlerState) (name : String) :
    alookup (ensureStream st name).sequenceTokens name
      = some ((alookup st.sequenceTokens name).getD none) := by
  unfold ensureStream
  cases h : alookup st.sequenceTokens name with
  | none => simp [h, alookup_aset_self]
  | some v => simp [h]

lemma queueContents_ensureQueue (st : HandlerState) (name n2 : String) :
    queueContents (ensureQueue st name) n2 = queueContents st n2 := by
  unfold ensureQueue queueContents
  cases h : alookup st.queues name with
  | none =>
    by_cases h2 : name = n2
    · subst h2
      simp [h, alookup_aset_self]
    · simp [h, alookup_aset_ne _ _ _ _ h2]
  | some q => simp [h]

lemma emit_sequenceTokens (cfg : Config) (st : HandlerState) (recName : String)
    (m : LogEvent) :
    (emit cfg st recName m).sequenceTokens
      = (ensureStream st (cfg.streamName.getD recName)).sequenceTokens := by
  unfold emit
  by_cases hq : cfg.useQueues = true
  · by_cases hsd : st.shuttingDown = true <;> simp [hq, hsd]
  · simp [hq]

lemma emit_shutdown_eq (cfg : Config) (st : HandlerState) (recName : String)
    (m : LogEvent) (hq : cfg.useQueues = true) (hsd : st.shuttingDown = true) :
    emit cfg st recName m
      = { ensureQueue (ensureStream st (cfg.streamName.getD recName))
            (cfg.streamName.getD recName) with
          warningCount :=
            (ensureQueue (ensureStream st (cfg.streamName.getD recName))
              (cfg.streamName.getD recName)).warningCount + 1 } := by
  unfold emit
  simp [hq, hsd]

/-- C7: group/stream creation is idempotent — a `ClientError` with code
`ResourceAlreadyExistsException` is swallowed and the operation succeeds,
any other `ClientError` code is re-raised; on first use `emit` initialises
the stream's sequencing token to `none`; and while the stored token is
`none` a submission's first remote call carries no `sequenceToken` field. -/
theorem idempotent_create_policy :
    (idempotentCreate (CallResult.clientError "ResourceAlreadyExistsException")
        = CallResult.ok)
    ∧ (∀ c : String, c ≠ "ResourceAlreadyExistsException" →
        idempotentCreate (CallResult.clientError c) = CallResult.clientError c)
    ∧ (∀ (cfg : Config) (st : HandlerState) (recName : String) (m : LogEvent),
        alookup st.sequenceTokens (cfg.streamName.getD recName) = none →
        alookup (emit cfg st recName m).sequenceTokens
            (cfg.streamName.getD recName) = some none)
    ∧ (∀ (batch : List LogEvent) (oracle : Nat → PutOutcome) (f : Nat)
          (call : PutCall),
        (submitBatch batch none oracle (f + 1)).calls.head? = some call →
        call.sequenceToken = none) := by
  refine ⟨by decide, ?_, ?_, ?_⟩
  · intro c hc
    simp [idempotentCreate, hc]
  · intro cfg st recName m h
    rw [emit_sequenceTokens, alookup_ensureStream_tokens, h]
    rfl
  · intro batch oracle f call h
    cases batch with
    | nil =>
      rw [submit_batch_empty_noop] at h
      exact absurd h (by simp)
    | cons a l =>
      rw [submitBatch_calls _ _ _ _ (by simp)] at h
      rw [submitLoop_head] at h
      cases h
      rfl

theorem idempotent_create_policy_witness :
    "LimitExceededException" ≠ "ResourceAlreadyExistsException"
    ∧ idempotentCreate (CallResult.clientError "LimitExceededException")
        = CallResult.clientError "LimitExceededException"
    ∧ alookup stShut.sequenceTokens "t" = none
    ∧ alookup (emit (Config.mk none true) stShut "t" ⟨0, "x"⟩).sequenceTokens
        "t" = some none :=
  ⟨by decide, idempotent_create_policy.2.1 "LimitExceededException" (by decide),
   by decide,
   idempotent_create_policy.2.2.1 (Config.mk none true) stShut "t" ⟨0, "x"⟩
     (by decide)⟩

/-- C8: once `flush()` has set `shutting_down`, an `emit` never enqueues onto
any stream's queue (every queue's contents are unchanged) and records a
warning instead; `flush()` puts the `END` sentinel into every known stream's
queue and waits for each queue to drain (its post-state holds every queue
empty); and a worker given any pending events followed by the sentinel
processes all of them — the submitted batches concatenate to exactly the
pending events. -/
theorem flush_shutdown_drain :
    (∀ (cfg : Config) (st : HandlerState) (recName : String) (m : LogEvent),
        cfg.useQueues = true → st.shuttingDown = true →
        (∀ name, queueContents (emit cfg st recName m) name
            = queueContents st name)
        ∧ (emit cfg st recName m).warningCount = st.warningCount + 1)
    ∧ (∀ st : HandlerState,
        (flush st).state.shuttingDown = true
        ∧ (flush st).sentinelTargets = st.queues.map Prod.fst
        ∧ (flush st).drained = st.queues
        ∧ ∀ name, queueContents (flush st).state name = [])
    ∧ (∀ (st : HandlerState) (name : String) (pending : List LogEvent)
          (maxSize maxCount : Nat) (items : List QItem),
        (name, pending) ∈ (flush st).drained →
        QItem.endSentinel ∉ items → realMsgs items = pending →
        (batchSender maxSize maxCount (items ++ [QItem.endSentinel])).flatten
          = pending) := by
  refine ⟨?_, ?_, ?_⟩
  · intro cfg st recName m hq hsd
    rw [emit_shutdown_eq cfg st recName m hq hsd]
    constructor
    · intro n2
      show queueContents
          (ensureQueue (ensureStream st (cfg.streamName.getD recName))
            (cfg.streamName.getD recName)) n2 = queueContents st n2
      rw [queueContents_ensureQueue]
      unfold queueContents
      rw [ensureStream_queues]
    · simp
  · intro st
    refine ⟨rfl, rfl, rfl, ?_⟩
    intro name
    show (alookup (st.queues.map (fun p => (p.1, ([] : List LogEvent))))
        name).getD [] = []
    exact alookup_map_empty st.queues name
  · intro st name pending maxS maxC items _ hns hreal
    have := join_batchLoop maxS maxC items hns [] 0 0
    simpa [batchSender, hreal] using this

theorem flush_shutdown_drain_witness :
    (Config.mk none true).useQueues = true
    ∧ stShut.shuttingDown = true
    ∧ queueContents (emit (Config.mk none true) stShut "s" ⟨1, "b"⟩) "s"
        = queueContents stShut "s"
    ∧ (emit (Config.mk none true) stShut "s" ⟨1, "b"⟩).warningCount
        = stShut.warningCount + 1
    ∧ (flush stShut).state.shuttingDown = true :=
  ⟨rfl, rfl,
   (flush_shutdown_drain.1 (Config.mk none true) stShut "s" ⟨1, "b"⟩ rfl
      rfl).1 "s",
   (flush_shutdown_drain.1 (Config.mk none true) stShut "s" ⟨1, "b"⟩ rfl
      rfl).2,
   (flush_shutdown_drain.2.1 stShut).1⟩

/-- C10: an `emit` for a previously unseen stream after shutdown has begun
still issues the remote stream creation, initialises the stream's token to
`none`, creates the stream's (empty) queue and starts its worker thread, and
then discards the record with a warning: only the enqueue is suppressed. -/
theorem emit_provisions_during_shutdown :
    ∀ (cfg : Config) (st : HandlerState) (recName : String) (m : LogEvent),
      cfg.useQueues = true → st.shuttingDown = true →
      alookup st.sequenceTokens (cfg.streamName.getD recName) = none →
      alookup st.queues (cfg.streamName.getD recName) = none →
      ((emit cfg st recName m).createStreamCalls
          = st.createStreamCalls ++ [cfg.streamName.getD recName])
      ∧ (alookup (emit cfg st recName m).sequenceTokens
            (cfg.streamName.getD recName) = some none)
      ∧ (alookup (emit cfg st recName m).queues
            (cfg.streamName.getD recName) = some [])
      ∧ ((emit cfg st recName m).threads
          = st.threads ++ [cfg.streamName.getD recName])
      ∧ (emit cfg st recName m).warningCount = st.warningCount + 1
      ∧ queueContents (emit cfg st recName m) (cfg.streamName.getD recName)
          = [] := by
  intro cfg st recName m hq hsd htok hqueue
  set name := cfg.streamName.getD recName with hname
  have hs1 : ensureStream st name
      = { st with createStreamCalls := st.createStreamCalls ++ [name],
                  sequenceTokens := aset st.sequenceTokens name none } := by
    unfold ensureStream
    rw [htok]
    rfl
  have hs2 : ensureQueue (ensureStream st name) name
      = { ensureStream st name with
          queues := aset st.queues name [],
          threads := st.threads ++ [name] } := by
    unfold ensureQueue
    rw [ensureStream_queues, hqueue, ensureStream_threads]
    rfl
  rw [emit_shutdown_eq cfg st recName m hq hsd, ← hname, hs2, hs1]
  refine ⟨rfl, ?_, ?_, rfl, rfl, ?_⟩
  · exact alookup_aset_self st.sequenceTokens name none
  · exact alookup_aset_self st.queues name []
  · show (alookup (aset st.queues name []) name).getD [] = []
    rw [alookup_aset_self]
    rfl

theorem emit_provisions_during_shutdown_witness :
    (Config.mk none true).useQueues = true
    ∧ stShut.shuttingDown = true
    ∧ alookup stShut.sequenceTokens "t" = none
    ∧ alookup stShut.queues "t" = none
    ∧ (emit (Config.mk none true) stShut "t" ⟨0, "x"⟩).createStreamCalls
        = stShut.createStreamCalls ++ ["t"]
    ∧ alookup (emit (Config.mk none true) stShut "t" ⟨0, "x"⟩).queues "t"
        = some [] :=
  ⟨rfl, rfl, by decide, by decide,
   (emit_provisions_during_shutdown (Config.mk none true) stShut "t" ⟨0, "x"⟩
      rfl rfl (by decide) (by decide)).1,
   (emit_provisions_during_shutdown (Config.mk none true) stShut "t" ⟨0, "x"⟩
      rfl rfl (by decide) (by decide)).2.2.1⟩

end Watchtower
